import Mathlib

/-!
Verification of the authentication/session glue code of a Node OIDC demo
application (`app.js`, `config.js`): the in-memory user directory, the
OIDC verify callback, the session serializer, the `/api` authorization
gate and the logout route.
-/

namespace NodeAadDemo

/-- A user profile: provider-supplied claims.  The identity key is `oid`;
`none` models an absent `oid` property (JS `undefined`), `some ""` an
empty one — both are falsy in the source's `!profile.oid` check.
`displayName` stands for the remaining claim payload. -/
structure Profile where
  oid : Option String
  displayName : String
deriving DecidableEq, Repr

/-- JS truthiness of `profile.oid`: present and a non-empty string. -/
def truthyOid (p : Profile) : Bool :=
  match p.oid with
  | none => false
  | some s => !s.isEmpty

/-- `findUser` from `app.js`:
`loggedInUsers.find((user) => user.oid === oid)` passed to
`callback(null, user)`.  The first component is the error argument of the
callback (always `null`), the second the found user (or `undefined`). -/
def findUser (dir : List Profile) (oid : Option String) :
    Option String × Option Profile :=
  (none, dir.find? (fun user => user.oid == oid))

/-- The error argument passed to `done` by the verify callback. -/
inductive VerifyError where
  /-- `new Error("No oid found")` when `profile.oid` is falsy. -/
  | noOidFound
  /-- An error propagated from `findUser` (`done(err, null)`). -/
  | lookup (e : String)
deriving DecidableEq, Repr

/-- The resolution of the verify callback: `done(err, null)` or
`done(null, user)`. -/
inductive VerifyOutcome where
  | failure (e : VerifyError)
  | success (u : Profile)
deriving DecidableEq, Repr

/-- The OIDC strategy's verify callback from `app.js`, acting on the
`loggedInUsers` directory: reject a falsy `oid`; otherwise look the `oid`
up, propagating a lookup error; push the profile (auto-registration) when
absent; return the stored user when present.  Returns the updated
directory and the outcome passed to `done`. -/
def verify (dir : List Profile) (profile : Profile) :
    List Profile × VerifyOutcome :=
  if !truthyOid profile then
    (dir, .failure .noOidFound)
  else
    match findUser dir profile.oid with
    | (some e, _) => (dir, .failure (.lookup e))
    | (none, none) => (dir ++ [profile], .success profile)
    | (none, some user) => (dir, .success user)

/-- `passport.serializeUser`: `done(null, user.oid)`.  First component the
error argument (always `null`), second the serialized identifier. -/
def serializeUser (user : Profile) : Option String × Option String :=
  (none, user.oid)

/-- `passport.deserializeUser`: `findUser(oid, (err, user) => done(err, user))`. -/
def deserializeUser (dir : List Profile) (oid : Option String) :
    Option String × Option Profile :=
  findUser dir oid

/-- Directory states reachable from process start: `loggedInUsers` is
initialized to `[]` and mutated only by the verify callback. -/
inductive Reachable : List Profile → Prop
  | init : Reachable []
  | step (dir : List Profile) (p : Profile) :
      Reachable dir → Reachable (verify dir p).1

/-- At most one entry per `oid`. -/
def oidUnique (dir : List Profile) : Prop :=
  dir.Pairwise (fun a b => a.oid ≠ b.oid)

/-- Every stored entry has a truthy `oid`. -/
def allTruthy (dir : List Profile) : Prop :=
  ∀ u ∈ dir, truthyOid u = true

/-- Number of directory entries carrying a given `oid`. -/
def countOid (dir : List Profile) (oid : Option String) : Nat :=
  (dir.filter (fun u => u.oid == oid)).length

/-- An incoming HTTP request as seen by the route handlers: `req.user` is
the deserialized session identity, if any. -/
structure Request where
  user : Option Profile
deriving DecidableEq, Repr

/-- `req.isAuthenticated()`: a session identity is present. -/
def isAuthenticated (req : Request) : Bool :=
  req.user.isSome

/-- What a route handler sends back. -/
inductive Response where
  | redirect (url : String)
  | json (message : String)
deriving DecidableEq, Repr

/-- The `ensureAuthenticated` guard from `app.js`: proceed to the next
handler when authenticated, else redirect to `/login`. -/
def ensureAuthenticated (req : Request) (next : Request → Response) :
    Response :=
  if isAuthenticated req then next req
  else .redirect "/login"

/-- The `/api` terminal handler: `res.send(\x7b message: ... \x7d)`. -/
def apiHandler (_req : Request) : Response :=
  .json "Respone from API endpoint"

/-- `app.get('/api', ensureAuthenticated, ...)`. -/
def apiRoute (req : Request) : Response :=
  ensureAuthenticated req apiHandler

/-- `serverPort` from `config.js`. -/
def serverPort : Nat := 3000

/-- `destroySessionUrl` from `config.js`. -/
def destroySessionUrl : String :=
  "https://login.microsoftonline.com/common/oauth2/logout?post_logout_redirect_uri=http://localhost:"
    ++ toString serverPort

/-- The callback the `/logout` handler hands to `req.session.destroy`:
whatever error the destruction reports, it calls `req.logOut()` and
redirects to `config.destroySessionUrl`.  The boolean records that
`req.logOut()` ran. -/
def logoutCallback (_err : Option String) : Bool × Response :=
  (true, .redirect destroySessionUrl)

/-! ### Helper lemmas -/

theorem findUser_err_none (dir : List Profile) (oid : Option String) :
    (findUser dir oid).1 = none := rfl

theorem verify_of_falsy (dir : List Profile) (p : Profile)
    (h : truthyOid p = false) :
    verify dir p = (dir, .failure .noOidFound) := by
  simp [verify, h]

theorem verify_of_found (dir : List Profile) (p u : Profile)
    (ht : truthyOid p = true)
    (hf : dir.find? (fun v => v.oid == p.oid) = some u) :
    verify dir p = (dir, .success u) := by
  simp [verify, findUser, ht, hf]

theorem verify_of_absent (dir : List Profile) (p : Profile)
    (ht : truthyOid p = true)
    (hf : dir.find? (fun v => v.oid == p.oid) = none) :
    verify dir p = (dir ++ [p], .success p) := by
  simp [verify, findUser, ht, hf]

theorem reachable_inv {dir : List Profile} (h : Reachable dir) :
    oidUnique dir ∧ allTruthy dir := by
  induction h with
  | init =>
    exact ⟨List.Pairwise.nil, fun u hu => absurd hu (List.not_mem_nil u)⟩
  | step d p _ ih =>
    rcases ih with ⟨hu, ht⟩
    by_cases htp : truthyOid p = true
    · cases hf : d.find? (fun v => v.oid == p.oid) with
      | some u =>
        rw [verify_of_found d p u htp hf]
        exact ⟨hu, ht⟩
      | none =>
        rw [verify_of_absent d p htp hf]
        constructor
        · rw [oidUnique, List.pairwise_append]
          refine ⟨hu, List.pairwise_singleton _ _, ?_⟩
          intro a ha b hb
          rw [List.mem_singleton] at hb
          subst hb
          have := List.find?_eq_none.mp hf a ha
          simpa using this
        · intro u hu'
          rcases List.mem_append.mp hu' with h1 | h2
          · exact ht u h1
          · rw [List.mem_singleton] at h2
            subst h2
            exact htp
    · rw [verify_of_falsy d p (by simpa using htp)]
      exact ⟨hu, ht⟩

theorem find?_oid_of_mem {dir : List Profile} {u : Profile}
    (hu : oidUnique dir) (hmem : u ∈ dir) :
    dir.find? (fun v => v.oid == u.oid) = some u := by
  induction dir with
  | nil => cases hmem
  | cons a tl ih =>
    rcases List.mem_cons.mp hmem with rfl | htl
    · simp [List.find?_cons]
    · have ha : a.oid ≠ u.oid := (List.pairwise_cons.mp hu).1 u htl
      have hpred : (a.oid == u.oid) = false := by simpa using ha
      rw [List.find?_cons, hpred]
      exact ih (List.pairwise_cons.mp hu).2 htl

theorem countOid_le_one {dir : List Profile} (hu : oidUnique dir)
    (oid : Option String) : countOid dir oid ≤ 1 := by
  rw [countOid]
  by_contra hlt
  push_neg at hlt
  have hp : (dir.filter (fun v => v.oid == oid)).Pairwise
      (fun a b => a.oid ≠ b.oid) :=
    List.Pairwise.sublist (List.filter_sublist dir) hu
  match hf : dir.filter (fun v => v.oid == oid) with
  | [] => rw [hf] at hlt; simp at hlt
  | [b] => rw [hf] at hlt; simp at hlt
  | b :: c :: rest =>
    rw [hf] at hp
    have hbc : b.oid ≠ c.oid :=
      (List.pairwise_cons.mp hp).1 c (List.mem_cons_self c rest)
    have hb : (b.oid == oid) = true := by
      have : b ∈ dir.filter (fun v => v.oid == oid) := by
        rw [hf]; exact List.mem_cons_self b (c :: rest)
      exact (List.mem_filter.mp this).2
    have hc : (c.oid == oid) = true := by
      have : c ∈ dir.filter (fun v => v.oid == oid) := by
        rw [hf]
        exact List.mem_cons_of_mem b (List.mem_cons_self c rest)
      exact (List.mem_filter.mp this).2
    exact hbc (by
      rw [beq_iff_eq] at hb hc
      rw [hb, hc])

theorem countOid_eq_zero_of_find?_none {dir : List Profile}
    {oid : Option String}
    (hf : dir.find? (fun v => v.oid == oid) = none) :
    countOid dir oid = 0 := by
  rw [countOid, List.length_eq_zero, List.filter_eq_nil_iff]
  exact List.find?_eq_none.mp hf

theorem countOid_pos_of_find?_some {dir : List Profile}
    {oid : Option String} {u : Profile}
    (hf : dir.find? (fun v => v.oid == oid) = some u) :
    1 ≤ countOid dir oid := by
  have hmem : u ∈ dir.filter (fun v => v.oid == oid) :=
    List.mem_filter.mpr ⟨List.mem_of_find?_eq_some hf,
      @List.find?_some _ (fun v => v.oid == oid) u dir hf⟩
  rw [countOid]
  exact List.length_pos.mpr (List.ne_nil_of_mem hmem)

theorem countOid_append_self (dir : List Profile) (p : Profile) :
    countOid (dir ++ [p]) p.oid = countOid dir p.oid + 1 := by
  rw [countOid, countOid, List.filter_append]
  simp

theorem verify_truthy_core (dir : List Profile) (p : Profile)
    (hdir : Reachable dir) (hp : truthyOid p = true) :
    countOid (verify dir p).1 p.oid = 1 ∧
    (∃ u, (verify dir p).2 = .success u) := by
  have hu := (reachable_inv hdir).1
  cases hf : dir.find? (fun v => v.oid == p.oid) with
  | none =>
    rw [verify_of_absent dir p hp hf]
    refine ⟨?_, p, rfl⟩
    show countOid (dir ++ [p]) p.oid = 1
    rw [countOid_append_self, countOid_eq_zero_of_find?_none hf]
  | some u =>
    rw [verify_of_found dir p u hp hf]
    refine ⟨?_, u, rfl⟩
    show countOid dir p.oid = 1
    exact Nat.le_antisymm (countOid_le_one hu p.oid)
      (countOid_pos_of_find?_some hf)

/-! ### Claim theorems -/

/-- Claim C1: for every profile with a non-empty `oid`, invoking the
verify callback twice with the same `oid` leaves exactly one directory
entry with that `oid`, and both invocations report success with a user
record. -/
theorem adapter_idempotent_registration
    (dir : List Profile) (p q : Profile) (hdir : Reachable dir)
    (hp : truthyOid p = true) (hq : truthyOid q = true)
    (hoid : q.oid = p.oid) :
    countOid (verify (verify dir p).1 q).1 p.oid = 1 ∧
    (∃ u, (verify dir p).2 = .success u) ∧
    (∃ u, (verify (verify dir p).1 q).2 = .success u) := by
  have h1 := verify_truthy_core dir p hdir hp
  have hd1 : Reachable (verify dir p).1 := Reachable.step dir p hdir
  have h2 := verify_truthy_core (verify dir p).1 q hd1 hq
  refine ⟨?_, h1.2, h2.2⟩
  rw [← hoid]
  exact h2.1

theorem adapter_idempotent_registration_witness :
    countOid (verify (verify [] ⟨some "abc", "Ada"⟩).1
        ⟨some "abc", "Bea"⟩).1 (Profile.mk (some "abc") "Ada").oid = 1 ∧
    (∃ u, (verify [] ⟨some "abc", "Ada"⟩).2 = .success u) ∧
    (∃ u, (verify (verify [] ⟨some "abc", "Ada"⟩).1
        ⟨some "abc", "Bea"⟩).2 = .success u) :=
  adapter_idempotent_registration [] ⟨some "abc", "Ada"⟩ ⟨some "abc", "Bea"⟩
    Reachable.init (by decide) (by decide) rfl

/-- Claim C2: for every profile with a falsy `oid` (absent or empty), the
verify callback fails with the missing-identity-claim error
(`new Error("No oid found")`), creates no session (no success outcome),
and leaves the directory unchanged. -/
theorem adapter_missing_oid_rejected (dir : List Profile) (p : Profile)
    (hp : truthyOid p = false) :
    verify dir p = (dir, .failure .noOidFound) :=
  verify_of_falsy dir p hp

theorem adapter_missing_oid_rejected_witness :
    verify [] ⟨none, "Ada"⟩ = ([], .failure .noOidFound) ∧
    verify [⟨some "abc", "Ada"⟩] ⟨some "", "Bea"⟩
      = ([⟨some "abc", "Ada"⟩], .failure .noOidFound) :=
  ⟨adapter_missing_oid_rejected [] ⟨none, "Ada"⟩ (by decide),
   adapter_missing_oid_rejected [⟨some "abc", "Ada"⟩] ⟨some "", "Bea"⟩
     (by decide)⟩

/-- Claim C3: for every user already in the directory,
`deserialize(serialize(user))` returns that same record (with a null
error); for an `oid` matching no entry, deserialization yields an absent
user with a null error, not an error. -/
theorem serializer_roundtrip :
    (∀ (dir : List Profile) (u : Profile), Reachable dir → u ∈ dir →
      deserializeUser dir (serializeUser u).2 = (none, some u)) ∧
    (∀ (dir : List Profile) (oid : Option String),
      (∀ u ∈ dir, u.oid ≠ oid) →
      deserializeUser dir oid = (none, none)) := by
  constructor
  · intro dir u hdir hmem
    have hu := (reachable_inv hdir).1
    have hf := find?_oid_of_mem hu hmem
    show findUser dir u.oid = (none, some u)
    rw [findUser, hf]
  · intro dir oid hoid
    have hf : dir.find? (fun v => v.oid == oid) = none :=
      List.find?_eq_none.mpr (fun u hu => by simpa using hoid u hu)
    show findUser dir oid = (none, none)
    rw [findUser, hf]

theorem serializer_roundtrip_witness :
    deserializeUser (verify [] ⟨some "abc", "Ada"⟩).1
        (serializeUser ⟨some "abc", "Ada"⟩).2
      = (none, some ⟨some "abc", "Ada"⟩) ∧
    deserializeUser [⟨some "abc", "Ada"⟩] (some "zzz") = (none, none) :=
  ⟨serializer_roundtrip.1 (verify [] ⟨some "abc", "Ada"⟩).1
      ⟨some "abc", "Ada"⟩ (Reachable.step [] _ Reachable.init) (by decide),
   serializer_roundtrip.2 [⟨some "abc", "Ada"⟩] (some "zzz") (by decide)⟩

/-- Claim C4: the user directory starts empty, holds at most one entry
per `oid` in every reachable state, and every verify-callback step only
appends entries (never updates or removes them). -/
theorem directory_invariant :
    Reachable ([] : List Profile) ∧
    (∀ dir, Reachable dir → oidUnique dir) ∧
    (∀ dir p, ∃ rest, (verify dir p).1 = dir ++ rest) := by
  refine ⟨Reachable.init, fun dir h => (reachable_inv h).1,
    fun dir p => ?_⟩
  by_cases hp : truthyOid p = true
  · cases hf : dir.find? (fun v => v.oid == p.oid) with
    | none => exact ⟨[p], by rw [verify_of_absent dir p hp hf]⟩
    | some u => exact ⟨[], by rw [verify_of_found dir p u hp hf]; simp⟩
  · exact ⟨[], by rw [verify_of_falsy dir p (by simpa using hp)]; simp⟩

theorem directory_invariant_witness :
    Reachable ([] : List Profile) ∧ oidUnique ([] : List Profile) ∧
    ∃ rest, (verify [] ⟨some "abc", "Ada"⟩).1 = [] ++ rest :=
  ⟨directory_invariant.1, directory_invariant.2.1 [] Reachable.init,
   directory_invariant.2.2 [] ⟨some "abc", "Ada"⟩⟩

/-- Claim C5: if the request carries an authenticated identity, `GET
/api` returns the protected JSON payload; otherwise the
`ensureAuthenticated` guard redirects to `/login` and the protected
payload is never produced. -/
theorem api_route_gated (req : Request) :
    (isAuthenticated req = true →
      apiRoute req = .json "Respone from API endpoint") ∧
    (isAuthenticated req = false → apiRoute req = .redirect "/login") ∧
    (isAuthenticated req = false → ∀ m, apiRoute req ≠ .json m) := by
  refine ⟨fun h => ?_, fun h => ?_, fun h m => ?_⟩
  · simp [apiRoute, ensureAuthenticated, h, apiHandler]
  · simp [apiRoute, ensureAuthenticated, h]
  · simp [apiRoute, ensureAuthenticated, h]

theorem api_route_gated_witness :
    apiRoute { user := some ⟨some "abc", "Ada"⟩ }
      = .json "Respone from API endpoint" ∧
    apiRoute { user := none } = .redirect "/login" :=
  ⟨(api_route_gated { user := some ⟨some "abc", "Ada"⟩ }).1 rfl,
   (api_route_gated { user := none }).2.1 rfl⟩

/-- Claim C6: whatever error session destruction reports, the logout
handler clears local authentication state and redirects to the
configured provider logout URL, which carries the configured
`post_logout_redirect_uri`; the error is never surfaced. -/
theorem logout_always_redirects :
    (∀ err : Option String,
      logoutCallback err = (true, .redirect destroySessionUrl)) ∧
    destroySessionUrl =
      "https://login.microsoftonline.com/common/oauth2/logout?post_logout_redirect_uri=http://localhost:3000" :=
  ⟨fun _ => rfl, rfl⟩

/-- Claim C7: for a profile whose `oid` already matches a directory
entry, the verify callback returns that stored record and leaves the
directory entirely unchanged. -/
theorem adapter_returning_user_frame (dir : List Profile) (p u : Profile)
    (hdir : Reachable dir) (hp : truthyOid p = true)
    (hmem : u ∈ dir) (hoid : u.oid = p.oid) :
    verify dir p = (dir, .success u) := by
  have huniq := (reachable_inv hdir).1
  have hf := find?_oid_of_mem huniq hmem
  rw [hoid] at hf
  exact verify_of_found dir p u hp hf

theorem adapter_returning_user_frame_witness :
    verify (verify [] ⟨some "abc", "Ada"⟩).1 ⟨some "abc", "Bea"⟩
      = ((verify [] ⟨some "abc", "Ada"⟩).1, .success ⟨some "abc", "Ada"⟩) :=
  adapter_returning_user_frame (verify [] ⟨some "abc", "Ada"⟩).1
    ⟨some "abc", "Bea"⟩ ⟨some "abc", "Ada"⟩
    (Reachable.step [] _ Reachable.init) (by decide) (by decide) rfl

/-- Claim C8: `findUser` reports a null error on every input; it returns
a stored profile exactly when that profile is in the directory with the
requested `oid`, and an absent result exactly when no entry carries that
`oid`. -/
theorem findUser_contract (dir : List Profile) (oid : Option String) :
    (findUser dir oid).1 = none ∧
    (∀ u, (findUser dir oid).2 = some u → u ∈ dir ∧ u.oid = oid) ∧
    ((findUser dir oid).2 = none ↔ ∀ u ∈ dir, u.oid ≠ oid) := by
  refine ⟨rfl, fun u hu => ?_, ?_⟩
  · have hu' : dir.find? (fun v => v.oid == oid) = some u := hu
    have h2 := @List.find?_some _ (fun v => v.oid == oid) u dir hu'
    exact ⟨List.mem_of_find?_eq_some hu', by simpa using h2⟩
  · show dir.find? (fun v => v.oid == oid) = none ↔ ∀ u ∈ dir, u.oid ≠ oid
    constructor
    · intro hn u hu
      have := List.find?_eq_none.mp hn u hu
      simpa using this
    · intro h
      exact List.find?_eq_none.mpr (fun u hu => by simpa using h u hu)

theorem findUser_contract_witness :
    (findUser [⟨some "abc", "Ada"⟩] (some "abc")).1 = none ∧
    ((⟨some "abc", "Ada"⟩ : Profile) ∈ [(⟨some "abc", "Ada"⟩ : Profile)] ∧
      (Profile.mk (some "abc") "Ada").oid = some "abc") ∧
    (findUser [⟨some "abc", "Ada"⟩] (some "zzz")).2 = none :=
  ⟨(findUser_contract [⟨some "abc", "Ada"⟩] (some "abc")).1,
   (findUser_contract [⟨some "abc", "Ada"⟩] (some "abc")).2.1
     ⟨some "abc", "Ada"⟩ (by decide),
   (findUser_contract [⟨some "abc", "Ada"⟩] (some "zzz")).2.2.mpr
     (by decide)⟩

/-- Claim C9: `findUser` passes a null error to its callback on every
input, so the verify callback's lookup-error branch is unreachable and
every profile with a truthy `oid` resolves to success with a user
record. -/
theorem lookup_error_branch_unreachable :
    (∀ (dir : List Profile) (oid : Option String),
      (findUser dir oid).1 = none) ∧
    (∀ (dir : List Profile) (p : Profile), truthyOid p = true →
      ∃ u, (verify dir p).2 = .success u) := by
  refine ⟨fun dir oid => rfl, fun dir p hp => ?_⟩
  cases hf : dir.find? (fun v => v.oid == p.oid) with
  | none => exact ⟨p, by rw [verify_of_absent dir p hp hf]⟩
  | some u => exact ⟨u, by rw [verify_of_found dir p u hp hf]⟩

theorem lookup_error_branch_unreachable_witness :
    (findUser [] (some "abc")).1 = none ∧
    ∃ u, (verify [] ⟨some "abc", "Ada"⟩).2 = .success u :=
  ⟨lookup_error_branch_unreachable.1 [] (some "abc"),
   lookup_error_branch_unreachable.2 [] ⟨some "abc", "Ada"⟩ (by decide)⟩

/-- Claim C10: `serializeUser` is total — it always succeeds and yields
the `oid` field even when absent or empty; deserializing such a falsy
identifier against any reachable directory yields an absent user with a
null error, so the session degrades to unauthenticated. -/
theorem serializeUser_total_degrades :
    (∀ u : Profile, serializeUser u = (none, u.oid)) ∧
    (∀ (dir : List Profile) (u : Profile), Reachable dir →
      truthyOid u = false →
      deserializeUser dir (serializeUser u).2 = (none, none)) := by
  refine ⟨fun u => rfl, fun dir u hdir hu => ?_⟩
  have ht := (reachable_inv hdir).2
  have hf : dir.find? (fun v => v.oid == u.oid) = none := by
    refine List.find?_eq_none.mpr (fun v hv => ?_)
    have hvt := ht v hv
    cases hvoid : v.oid with
    | none => simp [truthyOid, hvoid] at hvt
    | some s =>
      have hs : s ≠ "" := by
        have h1 : s.isEmpty = false := by
          simpa [truthyOid, hvoid] using hvt
        simp [← String.isEmpty_iff, h1]
      cases huoid : u.oid with
      | none => simp [hvoid, huoid]
      | some t =>
        have htt : t = "" := by
          simpa [truthyOid, huoid, String.isEmpty_iff] using hu
        subst htt
        simp [hvoid, huoid, hs]
  show findUser dir u.oid = (none, none)
  rw [findUser, hf]

theorem serializeUser_total_degrades_witness :
    serializeUser ⟨none, "Ada"⟩ = (none, none) ∧
    deserializeUser [] (serializeUser ⟨some "", "Bea"⟩).2 = (none, none) :=
  ⟨serializeUser_total_degrades.1 ⟨none, "Ada"⟩,
   serializeUser_total_degrades.2 [] ⟨some "", "Bea"⟩ Reachable.init
     (by decide)⟩

end NodeAadDemo
